import Mathlib

/-!
Verification development for the ws-hub WebSocket server core:
the connection registry (ClientManager), the heartbeat monitor, the
metadata merge (system:setData), and the message router
(direct / notification / typing), shallowly embedded from
src/server.ts (ClientManager part), src/socket/events/system.ts,
src/socket/events/direct.ts, src/socket/events/typing.ts and
src/socket/handlers.ts.

Modelling conventions:
- Timestamps are Nat.
- A JavaScript value occurring in client metadata or message payloads is
  modelled by JValue: strings, arrays of strings (the shape used by the
  following list), Date stamps, and every other JSON value carried
  only by its serialized text, never interpreted.
- A JavaScript object is an ordered association list (Obj); object
  spread keeps first-occurrence key order and last-writer value, which
  objSet / objMergeRight reproduce.
- The JavaScript Map of the ClientManager is an ordered association
  list (Registry); Map.set on a present key replaces in place, on an
  absent key appends, Map.delete preserves the order of the rest, and
  iteration is list order. mapSet / mapDelete / mapValues reproduce
  this.
- Socket emissions and forced socket disconnects are collected as a
  list of Effect values; log output is not modelled.
-/

/-- A JSON-like value as it appears in client metadata and payloads.
The raw constructor carries any other JSON value by its serialized
text. -/
inductive JValue where
  | str : String → JValue
  | strArr : List String → JValue
  | time : Nat → JValue
  | raw : String → JValue
deriving DecidableEq, Repr

/-- A JavaScript object: ordered association list of fields. -/
abbrev Obj := List (String × JValue)

/-- First-match field lookup, as JavaScript property access. -/
def objGet (o : Obj) (k : String) : Option JValue :=
  (o.find? (fun p => p.1 = k)).map (fun p => p.2)

/-- Write one field: replace in place when the key is present, append
otherwise — the order/value discipline of a JavaScript object literal. -/
def objSet (o : Obj) (k : String) (v : JValue) : Obj :=
  if o.any (fun p => p.1 = k) then
    o.map (fun p => if p.1 = k then (k, v) else p)
  else
    o ++ [(k, v)]

/-- Spread-merge: fields of b written over a in order, as in the object
literal that spreads a then b. -/
def objMergeRight (a b : Obj) : Obj :=
  b.foldl (fun acc p => objSet acc p.1 p.2) a

/-- Serialized form of a value, modelling JSON.stringify (string
escaping is not modelled; Date stamps render as their quoted number). -/
def jsonRender : JValue → String
  | JValue.str s => "\"" ++ s ++ "\""
  | JValue.strArr xs =>
      "[" ++ String.intercalate "," (xs.map (fun s => "\"" ++ s ++ "\"")) ++ "]"
  | JValue.time t => "\"" ++ toString t ++ "\""
  | JValue.raw r => r

/-- Serialized form of an object, modelling JSON.stringify. -/
def renderObj (o : Obj) : String :=
  "\x7b" ++
    String.intercalate ","
      (o.map (fun p => "\"" ++ p.1 ++ "\":" ++ jsonRender p.2)) ++
  "\x7d"

/-- JavaScript truthiness of a modelled value (used by the guards that
test fields with !x). -/
def jvTruthy : JValue → Bool
  | JValue.str s => !(s == "")
  | JValue.strArr _ => true
  | JValue.time _ => true
  | JValue.raw r => !(r == "null" || r == "false" || r == "0" || r == "\"\"")

/-- Client data stored by the ClientManager, from the ClientData
interface of server.ts (the socket reference is represented by the id
used to address emissions). -/
structure ClientData where
  id : String
  connectTime : Nat
  metadata : Option Obj
  lastHeartbeat : Option Nat
  heartbeatMissed : Nat
  heartbeatPending : Bool
deriving DecidableEq, Repr

/-- The clients Map of the ClientManager: handle to record, in
insertion order. -/
abbrev Registry := List (String × ClientData)

/-- Map.get: first entry with the key. -/
def mapGet (st : Registry) (k : String) : Option ClientData :=
  (st.find? (fun p => p.1 = k)).map (fun p => p.2)

/-- Map.set: replace in place when present, append when absent. -/
def mapSet (st : Registry) (k : String) (v : ClientData) : Registry :=
  if st.any (fun p => p.1 = k) then
    st.map (fun p => if p.1 = k then (k, v) else p)
  else
    st ++ [(k, v)]

/-- Map.delete. -/
def mapDelete (st : Registry) (k : String) : Registry :=
  st.filter (fun p => !(p.1 = k))

/-- Map.values in iteration (insertion) order. -/
def mapValues (st : Registry) : List ClientData :=
  st.map (fun p => p.2)

/-- Every stored record carries its own key as id (holds for every
registry built by the ClientManager operations). -/
def WFids (st : Registry) : Prop :=
  ∀ p ∈ st, (p.2).id = p.1

instance (st : Registry) : Decidable (WFids st) :=
  List.decidableBAll _ st

/-- heartbeat section of the configuration (utils/config.ts). -/
structure HeartbeatConfig where
  interval : Nat
  timeout : Nat
  maxMissed : Nat
deriving DecidableEq, Repr

/-- notifications section of the configuration. -/
structure NotificationsConfig where
  maxFollowerNotifications : Nat
  throttleMs : Nat
  maxContentSize : Nat
deriving DecidableEq, Repr

/-- security section of the configuration. -/
structure SecurityConfig where
  maxMessageSize : Nat
deriving DecidableEq, Repr

/-- The configuration slice consumed by the modelled handlers. -/
structure Config where
  heartbeat : HeartbeatConfig
  notifications : NotificationsConfig
  security : SecurityConfig
deriving DecidableEq, Repr

/-- A socket emission payload; each constructor carries the fields the
source puts into the emitted object (timestamps and human-readable
message strings are elided). -/
inductive Payload where
  | errorMsg : String → Payload
  | dataSet : Bool → List String → Payload
  | followedNotice : String → String → Payload
  | heartbeat : String → Payload
  | directSent : Bool → String → Payload
  | directMsg : Obj → String → String → JValue → Payload
  | notificationSent : Bool → Nat → Payload
  | notificationMsg : Obj → String → String → JValue → Payload
  | typingUpdate : String → String → JValue → Bool → Payload
deriving DecidableEq, Repr

/-- An observable action of a handler: an emission to one connection,
or a forced socket disconnect. -/
inductive Effect where
  | emit : String → String → Payload → Effect
  | forceClose : String → Effect
deriving DecidableEq, Repr

/-- The record addClient stores (server.ts, addClient): fresh
connectTime, the metadata argument, heartbeat counters reset. -/
def freshClient (id : String) (metadata : Option Obj) (now : Nat) : ClientData :=
  { id := id
    connectTime := now
    metadata := metadata
    lastHeartbeat := some now
    heartbeatMissed := 0
    heartbeatPending := false }

/-- ClientManager.addClient: unconditionally sets the record for the
socket id. -/
def addClient (st : Registry) (id : String) (metadata : Option Obj)
    (now : Nat) : Registry :=
  mapSet st id (freshClient id metadata now)

/-- ClientManager.removeClient. -/
def removeClient (st : Registry) (id : String) : Registry :=
  mapDelete st id

/-- ClientManager.getClient. -/
def getClient (st : Registry) (id : String) : Option ClientData :=
  mapGet st id

/-- ClientManager.getAllClients: values in Map iteration order. -/
def getAllClients (st : Registry) : List ClientData :=
  mapValues st

/-- The test client.metadata?.username === username of
getClientByUsername: a strict string comparison, matching only when
the stored username field is that exact string. -/
def matchesUsername (u : String) (c : ClientData) : Bool :=
  match c.metadata with
  | some m =>
      match objGet m "username" with
      | some (JValue.str s) => s == u
      | _ => false
  | none => false

/-- ClientManager.getClientByUsername: linear scan in Map iteration
order, first match. -/
def getClientByUsername (st : Registry) (u : String) : Option ClientData :=
  (mapValues st).find? (matchesUsername u)

/-- The findFollowers criterion: metadata.following is an array that
includes the username. -/
def isFollower (u : String) (c : ClientData) : Bool :=
  match c.metadata with
  | some m =>
      match objGet m "following" with
      | some (JValue.strArr xs) => xs.contains u
      | _ => false
  | none => false

/-- ClientManager.findFollowers via findClients: filter over all
clients. -/
def findFollowers (st : Registry) (u : String) : List ClientData :=
  (mapValues st).filter (isFollower u)

/-- ClientManager.broadcastToFollowers: cap the follower list at
maxFollowerNotifications, then emit to each.  Throttling (throttleMs
greater than 0 and more than 10 recipients) only spreads the same
emissions over time; the model records the emissions in list order.
Returns the emissions and the returned recipient count. -/
def broadcastToFollowers (cfg : Config) (st : Registry) (username : String)
    (event : String) (data : Payload) : List Effect × Nat :=
  let followers := findFollowers st username
  let targetFollowers :=
    if followers.length > cfg.notifications.maxFollowerNotifications then
      followers.take cfg.notifications.maxFollowerNotifications
    else
      followers
  (targetFollowers.map (fun f => Effect.emit f.id event data),
   targetFollowers.length)

/-- ClientManager.recordHeartbeat: stamp lastHeartbeat, clear the
pending flag, and reset the missed count only when it is positive and
below maxMissed.  No beat id is consulted or stored. -/
def recordHeartbeat (cfg : Config) (st : Registry) (socketId : String)
    (now : Nat) : Registry × Bool :=
  match mapGet st socketId with
  | none => (st, false)
  | some c =>
      let c1 := { c with lastHeartbeat := some now, heartbeatPending := false }
      let c2 :=
        if 0 < c1.heartbeatMissed ∧ c1.heartbeatMissed < cfg.heartbeat.maxMissed
        then { c1 with heartbeatMissed := 0 }
        else c1
      (mapSet st socketId c2, true)

/-- ClientManager.disconnectClient: force-close the socket, then
remove the record. -/
def disconnectClient (st : Registry) (socketId : String) :
    Registry × List Effect :=
  match mapGet st socketId with
  | none => (st, [])
  | some _ => (mapDelete st socketId, [Effect.forceClose socketId])

/-- ClientManager.sendHeartbeat: set the pending flag, then emit
system:heartbeat with the beat id Date.now().toString().  The per-beat
deadline timer it arms is modelled separately by
heartbeatTimeoutCallback. -/
def sendHeartbeat (st : Registry) (socketId : String) (now : Nat) :
    Registry × List Effect :=
  match mapGet st socketId with
  | none => (st, [])
  | some c =>
      (mapSet st socketId { c with heartbeatPending := true },
       [Effect.emit socketId "system:heartbeat" (Payload.heartbeat (toString now))])

/-- The body of the per-beat deadline setTimeout in sendHeartbeat.  The
closure guards on the captured records pending flag, not on registry
presence; while the record is still registered the captured object is
the registered record, and once the record has been deleted its
mutation is invisible at registry level and the inner disconnectClient
finds nothing, so the callback is registry-observationally a no-op
then. -/
def heartbeatTimeoutCallback (cfg : Config) (st : Registry)
    (socketId : String) : Registry × List Effect :=
  match mapGet st socketId with
  | none => (st, [])
  | some c =>
      if c.heartbeatPending then
        let c1 := { c with heartbeatMissed := c.heartbeatMissed + 1 }
        let st1 := mapSet st socketId c1
        if cfg.heartbeat.maxMissed ≤ c1.heartbeatMissed then
          disconnectClient st1 socketId
        else
          (st1, [])
      else
        (st, [])

/-- One iteration of the forEach in checkAllClientHeartbeats, for the
client with the given id: a pending client gets its missed count
incremented and is disconnected when the count reaches maxMissed
(the forEach callback returns there); every client that was not
disconnected is then sent a fresh beat — the code does not skip
pending clients. -/
def tickClient (cfg : Config) (now : Nat) (acc : Registry × List Effect)
    (socketId : String) : Registry × List Effect :=
  let st := acc.1
  let effs := acc.2
  match mapGet st socketId with
  | none => (st, effs)
  | some c =>
      if c.heartbeatPending then
        let c1 := { c with heartbeatMissed := c.heartbeatMissed + 1 }
        let st1 := mapSet st socketId c1
        if cfg.heartbeat.maxMissed ≤ c1.heartbeatMissed then
          let r := disconnectClient st1 socketId
          (r.1, effs ++ r.2)
        else
          let r := sendHeartbeat st1 socketId now
          (r.1, effs ++ r.2)
      else
        let r := sendHeartbeat st socketId now
        (r.1, effs ++ r.2)

/-- ClientManager.checkAllClientHeartbeats: one periodic tick over the
snapshot of the client list taken at tick start. -/
def checkAllClientHeartbeats (cfg : Config) (now : Nat) (st : Registry) :
    Registry × List Effect :=
  (st.map (fun p => p.1)).foldl (tickClient cfg now) (st, [])

/-- The username read senderInfo?.metadata?.username followed by the
truthiness guard if (!username): only a nonempty stored string counts
(usernames stored as non-strings are outside the model). -/
def usernameOf (c? : Option ClientData) : Option String :=
  match c? with
  | some c =>
      match c.metadata with
      | some m =>
          match objGet m "username" with
          | some (JValue.str s) => if s == "" then none else some s
          | _ => none
      | none => none
  | none => none

/-- senderInfo?.metadata?.profile || an empty object. -/
def profileOf (c? : Option ClientData) : JValue :=
  match c? with
  | some c =>
      match c.metadata with
      | some m =>
          match objGet m "profile" with
          | some v => v
          | none => JValue.raw "\x7b\x7d"
      | none => JValue.raw "\x7b\x7d"
  | none => JValue.raw "\x7b\x7d"

/-- Net registry change of one received system:heartbeat-ack.  Two
handlers are registered for the event: the one in
socket/events/system.ts ignores the ack when the id field is missing
or falsy and otherwise calls recordHeartbeat, and the one added in
socket/handlers.ts (setupEventHandlers) calls recordHeartbeat
unconditionally.  ackId is the id field of the ack, none when absent
or falsy.  Neither handler emits anything. -/
def onHeartbeatAck (cfg : Config) (ackId : Option String) (st : Registry)
    (socketId : String) (now : Nat) : Registry :=
  let st1 :=
    match ackId with
    | none => st
    | some _ => (recordHeartbeat cfg st socketId now).1
  (recordHeartbeat cfg st1 socketId now).1

/-- isValidDirectMessage of direct.ts: target and type both present,
strings, and truthy (nonempty). -/
def isValidDirectMessage (data : Obj) : Bool :=
  (match objGet data "target" with
   | some (JValue.str s) => !(s == "")
   | _ => false) &&
  (match objGet data "type" with
   | some (JValue.str s) => !(s == "")
   | _ => false)

/-- The target field of a validated direct or typing message. -/
def targetOf (data : Obj) : String :=
  match objGet data "target" with
  | some (JValue.str s) => s
  | _ => ""

/-- The system:direct handler of direct.ts.  The registry is never
mutated; the handler only emits.  The failure ack also carries a
human-readable reason string, elided from the payload model. -/
def handleDirect (st : Registry) (socketId : String) (data : Obj) :
    Registry × List Effect :=
  if !(isValidDirectMessage data) then
    (st, [Effect.emit socketId "system:error" (Payload.errorMsg "INVALID_FORMAT")])
  else
    let target := targetOf data
    let messageContent := data.filter (fun p => !(p.1 = "target"))
    let senderInfo := getClient st socketId
    match usernameOf senderInfo with
    | none =>
        (st, [Effect.emit socketId "system:error" (Payload.errorMsg "NO_USERNAME")])
    | some senderUsername =>
        match getClientByUsername st target with
        | none =>
            (st, [Effect.emit socketId "system:directSent"
                    (Payload.directSent false target)])
        | some targetClient =>
            (st, [Effect.emit targetClient.id "system:direct"
                    (Payload.directMsg messageContent socketId senderUsername
                      (profileOf senderInfo)),
                  Effect.emit socketId "system:directSent"
                    (Payload.directSent true target)])

/-- isValidNotification of system.ts: type present, a string, truthy;
content present and truthy. -/
def isValidNotification (data : Obj) : Bool :=
  (match objGet data "type" with
   | some (JValue.str s) => !(s == "")
   | _ => false) &&
  (match objGet data "content" with
   | some v => jvTruthy v
   | none => false)

/-- Serialized size of the content field, JSON.stringify(data.content).length. -/
def contentSize (data : Obj) : Nat :=
  match objGet data "content" with
  | some v => (jsonRender v).length
  | none => (jsonRender (JValue.raw "undefined")).length

/-- The system:notification handler of system.ts: validate, guard the
content size, require a username, enrich with sender info, broadcast
to followers, and ack with the recipient count. -/
def handleNotification (cfg : Config) (st : Registry) (socketId : String)
    (data : Obj) : Registry × List Effect :=
  if !(isValidNotification data) then
    (st, [Effect.emit socketId "system:error" (Payload.errorMsg "INVALID_FORMAT")])
  else if contentSize data > cfg.notifications.maxContentSize then
    (st, [Effect.emit socketId "system:error" (Payload.errorMsg "CONTENT_TOO_LARGE")])
  else
    let senderInfo := getClient st socketId
    match usernameOf senderInfo with
    | none =>
        (st, [Effect.emit socketId "system:error" (Payload.errorMsg "NO_USERNAME")])
    | some username =>
        let notification :=
          Payload.notificationMsg data socketId username (profileOf senderInfo)
        let r := broadcastToFollowers cfg st username "system:notification" notification
        (st, r.1 ++ [Effect.emit socketId "system:notificationSent"
                       (Payload.notificationSent true r.2)])

/-- handleFollowingUpdate of system.ts, run after the metadata update:
for each newly followed username that resolves to an online client,
emit one best-effort system:followed notice to that client. -/
def handleFollowingUpdate (st : Registry) (socketId : String)
    (newFollowing oldFollowing : List String) : List Effect :=
  let newlyFollowed := newFollowing.filter (fun u => !(oldFollowing.contains u))
  newlyFollowed.filterMap (fun u =>
    match getClientByUsername st u with
    | none => none
    | some targetClient =>
        some (Effect.emit targetClient.id "system:followed"
          (Payload.followedNotice socketId
            ((usernameOf (getClient st socketId)).getD "Anonymous"))))

/-- The previous following list as the diff reads it: an array of
strings, anything else treated as the empty list. -/
def followingListOf (m : Obj) : List String :=
  match objGet m "following" with
  | some (JValue.strArr xs) => xs
  | _ => []

/-- The updateClient call of the setData handler: merge the metadata
field into the record, a silent no-op when the record is absent. -/
def updateClientMetadata (st : Registry) (socketId : String) (m : Obj) :
    Registry :=
  match mapGet st socketId with
  | none => st
  | some c => mapSet st socketId { c with metadata := some m }

/-- The merged metadata of a setData call: spread the current
metadata, then the patch, then stamp lastUpdated. -/
def mergedMeta (current data : Obj) (now : Nat) : Obj :=
  objSet (objMergeRight current data) "lastUpdated" (JValue.time now)

/-- The system:setData handler of system.ts.  The INVALID_FORMAT
branch for a non-object payload is outside the model (the Obj argument
is already an object); the size guard runs before any read or
mutation.  On the success path: merge, update the record, ack with the
top-level patch keys, then emit followed notices for a patch that
carries a following array. -/
def handleSetData (cfg : Config) (st : Registry) (socketId : String)
    (data : Obj) (now : Nat) : Registry × List Effect :=
  let dataSize := (renderObj data).length
  if dataSize > cfg.security.maxMessageSize then
    (st, [Effect.emit socketId "system:error" (Payload.errorMsg "PAYLOAD_TOO_LARGE")])
  else
    let currentMetadata := ((getClient st socketId).bind (fun c => c.metadata)).getD []
    let updatedMetadata := mergedMeta currentMetadata data now
    let st1 := updateClientMetadata st socketId updatedMetadata
    let dataKeys := data.map (fun p => p.1)
    let ack := Effect.emit socketId "system:dataSet" (Payload.dataSet true dataKeys)
    let followedEffects :=
      match objGet data "following" with
      | some (JValue.strArr newFollowing) =>
          handleFollowingUpdate st1 socketId newFollowing
            (followingListOf currentMetadata)
      | _ => []
    (st1, [ack] ++ followedEffects)

/-- isValidTypingEvent of typing.ts: target present, a string, truthy. -/
def isValidTypingEvent (data : Obj) : Bool :=
  match objGet data "target" with
  | some (JValue.str s) => !(s == "")
  | _ => false

/-- One armed typing auto-stop timer: the values the setTimeout
closure of the typingStart handler captures.  The per-socket
typingTimeouts Map is modelled as a list of these across all sockets,
keyed by the owning sender. -/
structure TypingTimer where
  sender : String
  targetUsername : String
  targetId : String
  senderUsername : String
  senderProfile : JValue
deriving DecidableEq, Repr

/-- The body of the typing auto-stop setTimeout
(sendTypingStopToUser): emit typingUpdate isTyping:false to the
captured target from the captured sender data.  The registry argument
is never consulted — the callback performs no presence re-check. -/
def typingStopCallback (_st : Registry) (tm : TypingTimer) : List Effect :=
  [Effect.emit tm.targetId "system:typingUpdate"
    (Payload.typingUpdate tm.sender tm.senderUsername tm.senderProfile false)]

/-- The system:typingStart handler: validate, require a username,
silently no-op when the target is offline; otherwise replace any
armed timer for the same (sender, target), emit typingUpdate
isTyping:true, and arm a fresh auto-stop timer. -/
def handleTypingStart (st : Registry) (socketId : String) (data : Obj)
    (timers : List TypingTimer) : List Effect × List TypingTimer :=
  if !(isValidTypingEvent data) then
    ([Effect.emit socketId "system:error" (Payload.errorMsg "INVALID_FORMAT")],
     timers)
  else
    let target := targetOf data
    let senderInfo := getClient st socketId
    match usernameOf senderInfo with
    | none =>
        ([Effect.emit socketId "system:error" (Payload.errorMsg "NO_USERNAME")],
         timers)
    | some senderUsername =>
        match getClientByUsername st target with
        | none => ([], timers)
        | some targetClient =>
            let cleared := timers.filter
              (fun t => !(t.sender == socketId && t.targetUsername == target))
            let fresh : TypingTimer :=
              { sender := socketId
                targetUsername := target
                targetId := targetClient.id
                senderUsername := senderUsername
                senderProfile := profileOf senderInfo }
            ([Effect.emit targetClient.id "system:typingUpdate"
                (Payload.typingUpdate socketId senderUsername
                  (profileOf senderInfo) true)],
             cleared ++ [fresh])

/-- The disconnect handler of typing.ts: clear every timeout of the
disconnecting socket and empty its map. -/
def typingDisconnectCleanup (timers : List TypingTimer) (socketId : String) :
    List TypingTimer :=
  timers.filter (fun t => !(t.sender == socketId))

/-- A demonstration configuration with the documented defaults
(heartbeat interval 25000, timeout 10000, maxMissed 5; notification
cap 10000, no throttle, content cap 10240; message cap 102400). -/
def cfgDemo : Config :=
  { heartbeat := { interval := 25000, timeout := 10000, maxMissed := 5 }
    notifications :=
      { maxFollowerNotifications := 10000, throttleMs := 0, maxContentSize := 10240 }
    security := { maxMessageSize := 102400 } }

/-- The connect times of the registry records in Map iteration
order. -/
def connectTimes (st : Registry) : List Nat :=
  (mapValues st).map (fun c => c.connectTime)

/-- Iteration order of the registry agrees with the order of first
addition: connect times are nondecreasing along the list. -/
def SortedByConnect (st : Registry) : Prop :=
  List.Pairwise (fun a b => a ≤ b) (connectTimes st)

instance (st : Registry) : Decidable (SortedByConnect st) := by
  unfold SortedByConnect
  exact List.instDecidablePairwise _


section AListLemmas

variable {α : Type}

theorem any_key_of_find? {l : List (String × α)} {k : String} {c : String × α}
    (h : l.find? (fun p => p.1 = k) = some c) :
    l.any (fun p => p.1 = k) = true := by
  induction l with
  | nil => simp at h
  | cons p t ih =>
    by_cases hp : p.1 = k
    · simp [List.any_cons, hp]
    · rw [List.find?_cons_of_neg _ (by simpa using hp)] at h
      simp [List.any_cons, hp, ih h]

theorem find?_none_of_not_any {l : List (String × α)} {k : String}
    (h : l.any (fun p => p.1 = k) = false) :
    l.find? (fun p => p.1 = k) = none := by
  cases hf : l.find? (fun p => p.1 = k) with
  | none => rfl
  | some c => rw [any_key_of_find? hf] at h; cases h

theorem find?_replace_self {l : List (String × α)} {k : String} (v : α)
    (h : l.any (fun p => p.1 = k) = true) :
    (l.map (fun p => if p.1 = k then (k, v) else p)).find? (fun p => p.1 = k)
      = some (k, v) := by
  induction l with
  | nil => simp at h
  | cons p t ih =>
    by_cases hp : p.1 = k
    · simp only [List.map_cons, if_pos hp]
      rw [List.find?_cons_of_pos _ (by simp)]
    · simp only [List.any_cons, decide_eq_true_eq, hp, false_or] at h
      simp only [List.map_cons, if_neg hp]
      rw [List.find?_cons_of_neg _ (by simpa using hp)]
      exact ih h

theorem find?_replace_ne {l : List (String × α)} {k j : String} (v : α)
    (hne : ¬ j = k) :
    (l.map (fun p => if p.1 = k then (k, v) else p)).find? (fun p => p.1 = j)
      = l.find? (fun p => p.1 = j) := by
  induction l with
  | nil => rfl
  | cons p t ih =>
    by_cases hp : p.1 = k
    · have hpj : ¬ p.1 = j := fun h => hne ((hp ▸ h : k = j).symm ▸ rfl)
      simp only [List.map_cons, if_pos hp]
      rw [List.find?_cons_of_neg _ (by simpa using fun h : k = j => hne h.symm),
          List.find?_cons_of_neg _ (by simpa using hpj)]
      exact ih
    · simp only [List.map_cons, if_neg hp]
      by_cases hpj : p.1 = j
      · rw [List.find?_cons_of_pos _ (by simpa using hpj),
            List.find?_cons_of_pos _ (by simpa using hpj)]
      · rw [List.find?_cons_of_neg _ (by simpa using hpj),
            List.find?_cons_of_neg _ (by simpa using hpj)]
        exact ih

theorem find?_delete_self (l : List (String × α)) (k : String) :
    (l.filter (fun p => !(p.1 = k))).find? (fun p => p.1 = k) = none := by
  rw [List.find?_eq_none]
  intro p hp
  have := (List.mem_filter.mp hp).2
  simp only [Bool.not_eq_true', decide_eq_false_iff_not] at this
  simpa using this

theorem find?_delete_ne {l : List (String × α)} {k j : String} (hne : ¬ j = k) :
    (l.filter (fun p => !(p.1 = k))).find? (fun p => p.1 = j)
      = l.find? (fun p => p.1 = j) := by
  induction l with
  | nil => rfl
  | cons p t ih =>
    by_cases hp : p.1 = k
    · have hpj : ¬ p.1 = j := fun h => hne (h ▸ hp ▸ rfl)
      rw [List.filter_cons_of_neg (by simpa using hp),
          List.find?_cons_of_neg _ (by simpa using hpj)]
      exact ih
    · rw [List.filter_cons_of_pos (by simpa using hp)]
      by_cases hpj : p.1 = j
      · rw [List.find?_cons_of_pos _ (by simpa using hpj),
            List.find?_cons_of_pos _ (by simpa using hpj)]
      · rw [List.find?_cons_of_neg _ (by simpa using hpj),
            List.find?_cons_of_neg _ (by simpa using hpj)]
        exact ih

theorem find?_set_self (l : List (String × α)) (k : String) (v : α) :
    (if l.any (fun p => p.1 = k) then
       l.map (fun p => if p.1 = k then (k, v) else p)
     else l ++ [(k, v)]).find? (fun p => p.1 = k) = some (k, v) := by
  by_cases ha : l.any (fun p => p.1 = k)
  · rw [if_pos ha]
    exact find?_replace_self v ha
  · rw [if_neg ha, List.find?_append,
        find?_none_of_not_any (Bool.not_eq_true _ ▸ ha)]
    simp

theorem find?_set_ne (l : List (String × α)) {k j : String} (v : α)
    (hne : ¬ j = k) :
    (if l.any (fun p => p.1 = k) then
       l.map (fun p => if p.1 = k then (k, v) else p)
     else l ++ [(k, v)]).find? (fun p => p.1 = j)
      = l.find? (fun p => p.1 = j) := by
  by_cases ha : l.any (fun p => p.1 = k)
  · rw [if_pos ha]
    exact find?_replace_ne v hne
  · rw [if_neg ha, List.find?_append]
    cases hf : l.find? (fun p => p.1 = j) with
    | some w => rfl
    | none =>
      rw [List.find?_cons_of_neg _ (by simpa using fun h : k = j => hne h.symm)]
      rfl

end AListLemmas

theorem mapGet_mapSet_self (st : Registry) (k : String) (v : ClientData) :
    mapGet (mapSet st k v) k = some v := by
  unfold mapGet mapSet
  rw [find?_set_self]
  rfl

theorem mapGet_mapSet_ne {st : Registry} {k j : String} (v : ClientData)
    (hne : ¬ j = k) : mapGet (mapSet st k v) j = mapGet st j := by
  unfold mapGet mapSet
  rw [find?_set_ne st v hne]

theorem mapGet_mapDelete_self (st : Registry) (k : String) :
    mapGet (mapDelete st k) k = none := by
  unfold mapGet mapDelete
  rw [find?_delete_self]
  rfl

theorem mapGet_mapDelete_ne {st : Registry} {k j : String} (hne : ¬ j = k) :
    mapGet (mapDelete st k) j = mapGet st j := by
  unfold mapGet mapDelete
  rw [find?_delete_ne hne]

theorem objGet_objSet_self (o : Obj) (k : String) (v : JValue) :
    objGet (objSet o k v) k = some v := by
  unfold objGet objSet
  rw [find?_set_self]
  rfl

theorem objGet_objSet_ne {o : Obj} {k j : String} (v : JValue)
    (hne : ¬ j = k) : objGet (objSet o k v) j = objGet o j := by
  unfold objGet objSet
  rw [find?_set_ne o v hne]

theorem objGet_objMergeRight {b : Obj} (a : Obj) {j : String}
    (hb : (b.map Prod.fst).Nodup) :
    objGet (objMergeRight a b) j =
      match objGet b j with
      | some v => some v
      | none => objGet a j := by
  induction b generalizing a with
  | nil => rfl
  | cons p t ih =>
    simp only [List.map_cons, List.nodup_cons] at hb
    have step : objMergeRight a (p :: t) = objMergeRight (objSet a p.1 p.2) t := rfl
    rw [step, ih _ hb.2]
    by_cases hpj : p.1 = j
    · have ht : objGet t j = none := by
        unfold objGet
        rw [find?_none_of_not_any]
        · rfl
        · rw [Bool.eq_false_iff]
          intro hany
          rcases List.any_eq_true.mp hany with ⟨q, hq, hqj⟩
          exact hb.1 (by
            rw [hpj]
            exact List.mem_map.mpr ⟨q, hq, by simpa using hqj⟩)
      have hh : objGet (p :: t) j = some p.2 := by
        unfold objGet
        rw [List.find?_cons_of_pos _ (by simpa using hpj)]
        rfl
      rw [ht, hh]
      subst hpj
      exact objGet_objSet_self a p.1 p.2
    · have hh : objGet (p :: t) j = objGet t j := by
        unfold objGet
        rw [List.find?_cons_of_neg _ (by simpa using hpj)]
      rw [hh]
      cases hres : objGet t j with
      | some v => rfl
      | none => exact objGet_objSet_ne p.2 (fun h : j = p.1 => hpj h.symm)


theorem WFids_mapGet {st : Registry} {k : String} {c : ClientData}
    (hwf : WFids st) (h : mapGet st k = some c) : c.id = k := by
  unfold mapGet at h
  cases hf : st.find? (fun p => p.1 = k) with
  | none => rw [hf] at h; cases h
  | some p =>
      rw [hf] at h
      have hc : p.2 = c := by simpa using h
      have hmem : p ∈ st := List.mem_of_find?_eq_some hf
      have hk : p.1 = k := by simpa using List.find?_some hf
      rw [← hc, hwf p hmem, hk]

theorem WFids_mapSet {st : Registry} {k : String} {v : ClientData}
    (hwf : WFids st) (hv : v.id = k) : WFids (mapSet st k v) := by
  intro p hp
  unfold mapSet at hp
  by_cases ha : st.any (fun q => q.1 = k)
  · rw [if_pos ha] at hp
    rcases List.mem_map.mp hp with ⟨q, hq, hqe⟩
    by_cases hqk : q.1 = k
    · rw [if_pos hqk] at hqe
      rw [← hqe]
      exact hv
    · rw [if_neg hqk] at hqe
      rw [← hqe]
      exact hwf q hq
  · rw [if_neg ha] at hp
    rcases List.mem_append.mp hp with hl | hr
    · exact hwf p hl
    · have : p = (k, v) := by simpa using hr
      rw [this]
      exact hv

theorem WFids_mapDelete {st : Registry} (k : String) (hwf : WFids st) :
    WFids (mapDelete st k) := by
  intro p hp
  exact hwf p (List.mem_of_mem_filter hp)

/-- C5: a setData patch whose serialized size exceeds
security.maxMessageSize is rejected with PAYLOAD_TOO_LARGE before any
read or mutation: the registry is returned untouched and the error is
the only emission (in particular no dataSet ack and no followed
notice). -/
theorem C5_oversize_setData_rejected_without_mutation
    (cfg : Config) (st : Registry) (socketId : String) (data : Obj) (now : Nat)
    (h : (renderObj data).length > cfg.security.maxMessageSize) :
    handleSetData cfg st socketId data now
      = (st, [Effect.emit socketId "system:error"
                (Payload.errorMsg "PAYLOAD_TOO_LARGE")]) := by
  unfold handleSetData
  rw [if_pos h]

/-- C5 witness: concrete oversize patch, rejected with no mutation. -/
theorem C5_witness :
    (renderObj [("a", JValue.str "x")]).length > 1
    ∧ handleSetData
        { heartbeat := { interval := 25000, timeout := 10000, maxMissed := 5 }
          notifications :=
            { maxFollowerNotifications := 10000, throttleMs := 0,
              maxContentSize := 10240 }
          security := { maxMessageSize := 1 } }
        [("c1", freshClient "c1" (some [("b", JValue.str "y")]) 0)]
        "c1" [("a", JValue.str "x")] 3
      = ([("c1", freshClient "c1" (some [("b", JValue.str "y")]) 0)],
         [Effect.emit "c1" "system:error" (Payload.errorMsg "PAYLOAD_TOO_LARGE")]) :=
  ⟨by decide,
   C5_oversize_setData_rejected_without_mutation _ _ _ _ _ (by decide)⟩

/-- C8 counterexample: addClient on a handle that is already present
does not fail and does not leave the existing record unchanged — it
installs a fresh record, losing the old connectTime, metadata and
heartbeat state. -/
theorem C8_counterexample :
    mapGet
      (addClient
        [("a", ClientData.mk "a" 5 (some [("username", JValue.str "u")]) (some 6) 3 true)]
        "a" none 10)
      "a" = some (freshClient "a" none 10)
    ∧ freshClient "a" none 10
        ≠ ClientData.mk "a" 5 (some [("username", JValue.str "u")]) (some 6) 3 true := by
  decide

/-- C8 amended: addClient never fails and never skips: for any handle,
present or not, it unconditionally stores a fresh record (new
connectTime, the supplied metadata, heartbeat counters reset),
replacing any existing record for that handle; records under other
handles are untouched. -/
theorem C8_addClient_overwrites (st : Registry) (id : String)
    (metadata : Option Obj) (now : Nat) :
    mapGet (addClient st id metadata now) id = some (freshClient id metadata now)
    ∧ ∀ j, ¬ j = id → mapGet (addClient st id metadata now) j = mapGet st j := by
  refine ⟨mapGet_mapSet_self st id _, fun j hj => mapGet_mapSet_ne _ hj⟩

/-- C8 witness: the amended overwrite behaviour at a concrete registry. -/
theorem C8_witness :
    mapGet
      (addClient
        [("a", ClientData.mk "a" 5 none (some 6) 3 true),
         ("b", ClientData.mk "b" 7 none (some 7) 0 false)]
        "a" none 10)
      "a" = some (freshClient "a" none 10)
    ∧ (¬ ("b" : String) = "a")
    ∧ mapGet
        (addClient
          [("a", ClientData.mk "a" 5 none (some 6) 3 true),
           ("b", ClientData.mk "b" 7 none (some 7) 0 false)]
          "a" none 10)
        "b"
      = mapGet
          [("a", ClientData.mk "a" 5 none (some 6) 3 true),
           ("b", ClientData.mk "b" 7 none (some 7) 0 false)]
          "b" :=
  ⟨(C8_addClient_overwrites _ "a" none 10).1,
   by decide,
   (C8_addClient_overwrites _ "a" none 10).2 "b" (by decide)⟩

/-- C2: in a monitor tick, a pending client whose missed count reaches
maxMissed is force-closed and its record deleted: afterwards its
handle resolves to nothing and no record with its id appears in
getAllClients, while the record of every other handle is exactly as
before the tick step (the removal mutates no other record). -/
theorem C2_timeout_removes_and_leaves_others
    (cfg : Config) (st : Registry) (socketId : String) (c : ClientData)
    (now : Nat) (es : List Effect)
    (hwf : WFids st)
    (hget : mapGet st socketId = some c)
    (hpend : c.heartbeatPending = true)
    (hmiss : cfg.heartbeat.maxMissed ≤ c.heartbeatMissed + 1) :
    mapGet (tickClient cfg now (st, es) socketId).1 socketId = none
    ∧ (∀ r ∈ getAllClients (tickClient cfg now (st, es) socketId).1,
        ¬ r.id = socketId)
    ∧ Effect.forceClose socketId ∈ (tickClient cfg now (st, es) socketId).2
    ∧ (∀ j, ¬ j = socketId →
        mapGet (tickClient cfg now (st, es) socketId).1 j = mapGet st j) := by
  have hstep :
      tickClient cfg now (st, es) socketId
        = (mapDelete (mapSet st socketId
             { c with heartbeatMissed := c.heartbeatMissed + 1 }) socketId,
           es ++ [Effect.forceClose socketId]) := by
    unfold tickClient
    simp only [hget]
    rw [if_pos hpend, if_pos hmiss]
    unfold disconnectClient
    rw [mapGet_mapSet_self]
  rw [hstep]
  refine ⟨mapGet_mapDelete_self _ _, ?_, by simp, ?_⟩
  · intro r hr
    have hcid0 : c.id = socketId := WFids_mapGet hwf hget
    have hcid : ({ c with heartbeatMissed := c.heartbeatMissed + 1 }
        : ClientData).id = socketId := hcid0
    have hwf1 : WFids (mapSet st socketId
        { c with heartbeatMissed := c.heartbeatMissed + 1 }) :=
      WFids_mapSet hwf hcid
    have hwf2 := WFids_mapDelete socketId hwf1
    rcases List.mem_map.mp hr with ⟨p, hp, hpe⟩
    have hkey := (List.mem_filter.mp hp).2
    simp only [Bool.not_eq_true', decide_eq_false_iff_not] at hkey
    rw [← hpe]
    rw [hwf2 p hp]
    simpa using hkey
  · intro j hj
    rw [mapGet_mapDelete_ne hj, mapGet_mapSet_ne _ hj]

/-- C2 witness: a concrete two-client registry where client a times out
and client b is untouched. -/
theorem C2_witness :
    WFids
      [("a", ClientData.mk "a" 1 none (some 1) 4 true),
       ("b", ClientData.mk "b" 2 none (some 2) 0 false)]
    ∧ mapGet
        (tickClient cfgDemo 9
          ([("a", ClientData.mk "a" 1 none (some 1) 4 true),
            ("b", ClientData.mk "b" 2 none (some 2) 0 false)], []) "a").1
        "a" = none
    ∧ Effect.forceClose "a"
        ∈ (tickClient cfgDemo 9
            ([("a", ClientData.mk "a" 1 none (some 1) 4 true),
              ("b", ClientData.mk "b" 2 none (some 2) 0 false)], []) "a").2
    ∧ mapGet
        (tickClient cfgDemo 9
          ([("a", ClientData.mk "a" 1 none (some 1) 4 true),
            ("b", ClientData.mk "b" 2 none (some 2) 0 false)], []) "a").1
        "b"
      = some (ClientData.mk "b" 2 none (some 2) 0 false) := by
  have h := C2_timeout_removes_and_leaves_others cfgDemo
      [("a", ClientData.mk "a" 1 none (some 1) 4 true),
       ("b", ClientData.mk "b" 2 none (some 2) 0 false)]
      "a" (ClientData.mk "a" 1 none (some 1) 4 true) 9 []
      (by decide) (by decide) (by decide) (by decide)
  refine ⟨by decide, h.1, h.2.2.1, ?_⟩
  rw [h.2.2.2 "b" (by decide)]
  decide

/-- C1 counterexample: a beat with id 100 is sent and left pending
with two misses already recorded; an acknowledgment carrying the
different beat id 999 is then processed.  The claim says such a
stale acknowledgment is ignored and leaves the heartbeat state
unchanged; instead it clears the pending flag and resets the missed
count to 0 — the handlers never compare the acknowledged id against
the pending beat id (which is not even stored). -/
theorem C1_counterexample :
    (sendHeartbeat [("c1", ClientData.mk "c1" 0 none (some 0) 2 false)] "c1" 100).2
      = [Effect.emit "c1" "system:heartbeat" (Payload.heartbeat "100")]
    ∧ mapGet (sendHeartbeat [("c1", ClientData.mk "c1" 0 none (some 0) 2 false)]
                "c1" 100).1 "c1"
      = some (ClientData.mk "c1" 0 none (some 0) 2 true)
    ∧ ("999" : String) ≠ "100"
    ∧ mapGet
        (onHeartbeatAck cfgDemo (some "999")
          (sendHeartbeat [("c1", ClientData.mk "c1" 0 none (some 0) 2 false)]
            "c1" 100).1
          "c1" 101)
        "c1"
      = some (ClientData.mk "c1" 0 none (some 101) 0 false) := by
  decide

/-- C1 amended: the server never compares acknowledgment ids with the
pending beat id.  Processing a system:heartbeat-ack for a registered
client — with a matching id, a non-matching (stale or duplicate) id,
or even no id at all (a second, unconditional handler is registered
for the event) — always stamps lastHeartbeat, clears the pending flag,
and resets the missed count to 0 exactly when it was positive and
still below maxMissed. -/
theorem C1_any_ack_records (cfg : Config) (st : Registry) (socketId : String)
    (c : ClientData) (now : Nat) (ackId : Option String)
    (hget : mapGet st socketId = some c) :
    mapGet (onHeartbeatAck cfg ackId st socketId now) socketId
      = some { c with
                lastHeartbeat := some now
                heartbeatPending := false
                heartbeatMissed :=
                  if 0 < c.heartbeatMissed
                      ∧ c.heartbeatMissed < cfg.heartbeat.maxMissed
                  then 0 else c.heartbeatMissed } := by
  by_cases hcond : 0 < c.heartbeatMissed
      ∧ c.heartbeatMissed < cfg.heartbeat.maxMissed
  · have hrec1 : (recordHeartbeat cfg st socketId now).1
        = mapSet st socketId
            { c with
                lastHeartbeat := some now
                heartbeatPending := false
                heartbeatMissed := 0 } := by
      unfold recordHeartbeat
      simp only [hget]
      rw [if_pos hcond]
    cases ackId with
    | none =>
        unfold onHeartbeatAck
        simp only
        rw [hrec1, if_pos hcond]
        exact mapGet_mapSet_self _ _ _
    | some a =>
        unfold onHeartbeatAck
        simp only
        rw [hrec1]
        have hget1 : mapGet (mapSet st socketId
            { c with
                lastHeartbeat := some now
                heartbeatPending := false
                heartbeatMissed := 0 }) socketId
          = some { c with
                lastHeartbeat := some now
                heartbeatPending := false
                heartbeatMissed := 0 } := mapGet_mapSet_self _ _ _
        unfold recordHeartbeat
        simp only [hget1]
        rw [if_neg (by simp)]
        rw [if_pos hcond]
        exact mapGet_mapSet_self _ _ _
  · have hrec1 : (recordHeartbeat cfg st socketId now).1
        = mapSet st socketId
            { c with
                lastHeartbeat := some now
                heartbeatPending := false } := by
      unfold recordHeartbeat
      simp only [hget]
      rw [if_neg hcond]
    cases ackId with
    | none =>
        unfold onHeartbeatAck
        simp only
        rw [hrec1, if_neg hcond]
        exact mapGet_mapSet_self _ _ _
    | some a =>
        unfold onHeartbeatAck
        simp only
        rw [hrec1]
        have hget1 : mapGet (mapSet st socketId
            { c with
                lastHeartbeat := some now
                heartbeatPending := false })
            socketId
          = some { c with
                lastHeartbeat := some now
                heartbeatPending := false }
          := mapGet_mapSet_self _ _ _
        unfold recordHeartbeat
        simp only [hget1]
        rw [if_neg (by simpa using hcond)]
        rw [if_neg hcond]
        exact mapGet_mapSet_self _ _ _

/-- C1 witness: the amended acknowledgment behaviour at a concrete
registry, for an ack without an id. -/
theorem C1_witness :
    mapGet [("c1", ClientData.mk "c1" 0 none (some 0) 2 false)] "c1"
      = some (ClientData.mk "c1" 0 none (some 0) 2 false)
    ∧ mapGet
        (onHeartbeatAck cfgDemo none
          [("c1", ClientData.mk "c1" 0 none (some 0) 2 false)] "c1" 50)
        "c1"
      = some { ClientData.mk "c1" 0 none (some 0) 2 false with
                lastHeartbeat := some 50
                heartbeatPending := false
                heartbeatMissed :=
                  if 0 < (ClientData.mk "c1" 0 none (some 0) 2 false).heartbeatMissed
                      ∧ (ClientData.mk "c1" 0 none (some 0) 2 false).heartbeatMissed
                          < cfgDemo.heartbeat.maxMissed
                  then 0
                  else (ClientData.mk "c1" 0 none (some 0) 2 false).heartbeatMissed } :=
  ⟨by decide,
   C1_any_ack_records cfgDemo _ "c1" _ 50 none (by decide)⟩

/-- C3: evaluation at the failing input.  One client is still pending
from an earlier beat (missed count 0, maxMissed 5).  The periodic tick
increments its missed count to 1 — and then still sends it a fresh
system:heartbeat, although the claim (and the comment in
checkAllClientHeartbeats) says pending clients are skipped by the
tick: after the pending check the loop body falls through to
sendHeartbeat for every client it did not disconnect. -/
theorem C3_tick_sends_beat_to_pending_client :
    checkAllClientHeartbeats cfgDemo 7
        [("c1", ClientData.mk "c1" 0 none (some 0) 0 true)]
      = ([("c1", ClientData.mk "c1" 0 none (some 0) 1 true)],
         [Effect.emit "c1" "system:heartbeat" (Payload.heartbeat "7")]) := by
  decide

/-- C6: for a valid direct message from a sender with a username, an
unknown target username yields exactly one emission — the negative
acknowledgment to the sender — and no registry change; a known target
yields exactly one enriched delivery to that target (carrying the
sender username) followed by the positive acknowledgment to the
sender, again with no registry change. -/
theorem C6_direct_routing (st : Registry) (socketId : String) (data : Obj)
    (u : String)
    (hvalid : isValidDirectMessage data = true)
    (huser : usernameOf (getClient st socketId) = some u) :
    (getClientByUsername st (targetOf data) = none →
      handleDirect st socketId data
        = (st, [Effect.emit socketId "system:directSent"
                  (Payload.directSent false (targetOf data))]))
    ∧ (∀ t, getClientByUsername st (targetOf data) = some t →
      handleDirect st socketId data
        = (st, [Effect.emit t.id "system:direct"
                  (Payload.directMsg (data.filter (fun p => !(p.1 = "target")))
                    socketId u (profileOf (getClient st socketId))),
                Effect.emit socketId "system:directSent"
                  (Payload.directSent true (targetOf data))])) := by
  constructor
  · intro hnone
    unfold handleDirect
    rw [hvalid]
    simp only [Bool.not_true, Bool.false_eq_true, if_false, huser, hnone]
  · intro t ht
    unfold handleDirect
    rw [hvalid]
    simp only [Bool.not_true, Bool.false_eq_true, if_false, huser, ht]

/-- C6 witness: concrete delivery of a direct message to a known
username. -/
theorem C6_witness :
    isValidDirectMessage
        [("target", JValue.str "bob"), ("type", JValue.str "chat"),
         ("message", JValue.str "hi")] = true
    ∧ usernameOf (getClient
        [("s", ClientData.mk "s" 1 (some [("username", JValue.str "alice")]) (some 1) 0 false),
         ("t", ClientData.mk "t" 2 (some [("username", JValue.str "bob")]) (some 2) 0 false)]
        "s") = some "alice"
    ∧ handleDirect
        [("s", ClientData.mk "s" 1 (some [("username", JValue.str "alice")]) (some 1) 0 false),
         ("t", ClientData.mk "t" 2 (some [("username", JValue.str "bob")]) (some 2) 0 false)]
        "s"
        [("target", JValue.str "bob"), ("type", JValue.str "chat"),
         ("message", JValue.str "hi")]
      = ([("s", ClientData.mk "s" 1 (some [("username", JValue.str "alice")]) (some 1) 0 false),
          ("t", ClientData.mk "t" 2 (some [("username", JValue.str "bob")]) (some 2) 0 false)],
         [Effect.emit "t" "system:direct"
            (Payload.directMsg
              [("type", JValue.str "chat"), ("message", JValue.str "hi")]
              "s" "alice" (JValue.raw "\x7b\x7d")),
          Effect.emit "s" "system:directSent" (Payload.directSent true "bob")]) := by
  refine ⟨by decide, by decide, ?_⟩
  have h := (C6_direct_routing
      [("s", ClientData.mk "s" 1 (some [("username", JValue.str "alice")]) (some 1) 0 false),
       ("t", ClientData.mk "t" 2 (some [("username", JValue.str "bob")]) (some 2) 0 false)]
      "s"
      [("target", JValue.str "bob"), ("type", JValue.str "chat"),
       ("message", JValue.str "hi")]
      "alice" (by decide) (by decide)).2
      (ClientData.mk "t" 2 (some [("username", JValue.str "bob")]) (some 2) 0 false)
      (by decide)
  rw [h]
  decide

theorem capped_eq_take {β : Type} (l : List β) (n : Nat) :
    (if l.length > n then l.take n else l) = l.take n := by
  by_cases h : l.length > n
  · rw [if_pos h]
  · rw [if_neg h, List.take_of_length_le (Nat.le_of_not_lt h)]

/-- C7: a valid, size-conforming notification from a sender with a
username is delivered to exactly the connected clients whose
metadata.following contains the sender username, truncated to the
first maxFollowerNotifications in registry order, and the
acknowledgment recipientCount is the length of that truncated list;
when the follower count is within the cap the truncation is the whole
follower list. -/
theorem C7_notification_fanout (cfg : Config) (st : Registry)
    (socketId : String) (data : Obj) (u : String)
    (hvalid : isValidNotification data = true)
    (hsize : ¬ contentSize data > cfg.notifications.maxContentSize)
    (huser : usernameOf (getClient st socketId) = some u) :
    handleNotification cfg st socketId data
      = (st,
         ((findFollowers st u).take cfg.notifications.maxFollowerNotifications).map
            (fun f => Effect.emit f.id "system:notification"
               (Payload.notificationMsg data socketId u
                 (profileOf (getClient st socketId))))
         ++ [Effect.emit socketId "system:notificationSent"
               (Payload.notificationSent true
                 ((findFollowers st u).take
                    cfg.notifications.maxFollowerNotifications).length)])
    ∧ ((findFollowers st u).length ≤ cfg.notifications.maxFollowerNotifications →
        (findFollowers st u).take cfg.notifications.maxFollowerNotifications
          = findFollowers st u) := by
  constructor
  · unfold handleNotification
    rw [hvalid]
    simp only [Bool.not_true, Bool.false_eq_true, if_false]
    rw [if_neg hsize]
    simp only [huser]
    unfold broadcastToFollowers
    dsimp only
    rw [capped_eq_take]
  · intro h
    exact List.take_of_length_le h

/-- C7 witness: three online followers under a cap of 10000 give
recipientCount 3 and exactly those three deliveries. -/
theorem C7_witness :
    handleNotification cfgDemo
        [("s", ClientData.mk "s" 1 (some [("username", JValue.str "amy")]) (some 1) 0 false),
         ("f1", ClientData.mk "f1" 2 (some [("following", JValue.strArr ["amy"])]) (some 2) 0 false),
         ("f2", ClientData.mk "f2" 3 (some [("following", JValue.strArr ["amy", "zoe"])]) (some 3) 0 false),
         ("n1", ClientData.mk "n1" 4 (some [("following", JValue.strArr ["zoe"])]) (some 4) 0 false),
         ("f3", ClientData.mk "f3" 5 (some [("following", JValue.strArr ["amy"])]) (some 5) 0 false)]
        "s" [("type", JValue.str "news"), ("content", JValue.str "hello")]
      = ([("s", ClientData.mk "s" 1 (some [("username", JValue.str "amy")]) (some 1) 0 false),
          ("f1", ClientData.mk "f1" 2 (some [("following", JValue.strArr ["amy"])]) (some 2) 0 false),
          ("f2", ClientData.mk "f2" 3 (some [("following", JValue.strArr ["amy", "zoe"])]) (some 3) 0 false),
          ("n1", ClientData.mk "n1" 4 (some [("following", JValue.strArr ["zoe"])]) (some 4) 0 false),
          ("f3", ClientData.mk "f3" 5 (some [("following", JValue.strArr ["amy"])]) (some 5) 0 false)],
         [Effect.emit "f1" "system:notification"
            (Payload.notificationMsg
              [("type", JValue.str "news"), ("content", JValue.str "hello")]
              "s" "amy" (JValue.raw "\x7b\x7d")),
          Effect.emit "f2" "system:notification"
            (Payload.notificationMsg
              [("type", JValue.str "news"), ("content", JValue.str "hello")]
              "s" "amy" (JValue.raw "\x7b\x7d")),
          Effect.emit "f3" "system:notification"
            (Payload.notificationMsg
              [("type", JValue.str "news"), ("content", JValue.str "hello")]
              "s" "amy" (JValue.raw "\x7b\x7d")),
          Effect.emit "s" "system:notificationSent"
            (Payload.notificationSent true 3)]) := by
  have h := (C7_notification_fanout cfgDemo
      [("s", ClientData.mk "s" 1 (some [("username", JValue.str "amy")]) (some 1) 0 false),
       ("f1", ClientData.mk "f1" 2 (some [("following", JValue.strArr ["amy"])]) (some 2) 0 false),
       ("f2", ClientData.mk "f2" 3 (some [("following", JValue.strArr ["amy", "zoe"])]) (some 3) 0 false),
       ("n1", ClientData.mk "n1" 4 (some [("following", JValue.strArr ["zoe"])]) (some 4) 0 false),
       ("f3", ClientData.mk "f3" 5 (some [("following", JValue.strArr ["amy"])]) (some 5) 0 false)]
      "s" [("type", JValue.str "news"), ("content", JValue.str "hello")]
      "amy" (by decide) (by decide) (by decide)).1
  rw [h]
  decide

/-- C4: a size-conforming setData patch shallow-merges into the
current metadata: every patch key overwrites the same-named existing
key, every existing key not named in the patch (other than the
lastUpdated stamp) keeps its value, lastUpdated is stamped with the
call time, and the dataSet acknowledgment lists exactly the top-level
keys of the patch. -/
theorem C4_setData_shallow_merge (cfg : Config) (st : Registry)
    (socketId : String) (c : ClientData) (data : Obj) (now : Nat)
    (hget : mapGet st socketId = some c)
    (hsize : ¬ (renderObj data).length > cfg.security.maxMessageSize)
    (hnodup : (data.map Prod.fst).Nodup) :
    mapGet (handleSetData cfg st socketId data now).1 socketId
      = some { c with metadata := some (mergedMeta (c.metadata.getD []) data now) }
    ∧ (∀ k, ¬ k = "lastUpdated" →
        objGet (mergedMeta (c.metadata.getD []) data now) k
          = match objGet data k with
            | some v => some v
            | none => objGet (c.metadata.getD []) k)
    ∧ objGet (mergedMeta (c.metadata.getD []) data now) "lastUpdated"
        = some (JValue.time now)
    ∧ Effect.emit socketId "system:dataSet"
        (Payload.dataSet true (data.map (fun p => p.1)))
        ∈ (handleSetData cfg st socketId data now).2 := by
  have hcur : ((getClient st socketId).bind (fun cl => cl.metadata)).getD []
      = c.metadata.getD [] := by
    unfold getClient
    rw [hget]
    rfl
  have hst1 : (handleSetData cfg st socketId data now).1
      = mapSet st socketId
          { c with metadata := some (mergedMeta (c.metadata.getD []) data now) } := by
    unfold handleSetData
    rw [if_neg hsize]
    dsimp only
    rw [hcur]
    unfold updateClientMetadata
    rw [hget]
  refine ⟨?_, ?_, ?_, ?_⟩
  · rw [hst1]
    exact mapGet_mapSet_self _ _ _
  · intro k hk
    unfold mergedMeta
    rw [objGet_objSet_ne _ hk]
    exact objGet_objMergeRight _ hnodup
  · unfold mergedMeta
    exact objGet_objSet_self _ _ _
  · unfold handleSetData
    rw [if_neg hsize]
    simp

/-- C4 witness: setData of a:1 then of b:2 leaves metadata holding
both keys. -/
theorem C4_witness :
    mapGet (handleSetData cfgDemo [("c1", freshClient "c1" none 0)] "c1"
        [("a", JValue.raw "1")] 5).1 "c1"
      = some (ClientData.mk "c1" 0
          (some [("a", JValue.raw "1"), ("lastUpdated", JValue.time 5)])
          (some 0) 0 false)
    ∧ objGet (mergedMeta
        ((ClientData.mk "c1" 0
            (some [("a", JValue.raw "1"), ("lastUpdated", JValue.time 5)])
            (some 0) 0 false).metadata.getD [])
        [("b", JValue.raw "2")] 6) "a"
      = some (JValue.raw "1")
    ∧ objGet (mergedMeta
        ((ClientData.mk "c1" 0
            (some [("a", JValue.raw "1"), ("lastUpdated", JValue.time 5)])
            (some 0) 0 false).metadata.getD [])
        [("b", JValue.raw "2")] 6) "b"
      = some (JValue.raw "2")
    ∧ objGet (mergedMeta
        ((ClientData.mk "c1" 0
            (some [("a", JValue.raw "1"), ("lastUpdated", JValue.time 5)])
            (some 0) 0 false).metadata.getD [])
        [("b", JValue.raw "2")] 6) "lastUpdated"
      = some (JValue.time 6)
    ∧ mapGet
        (handleSetData cfgDemo
          (handleSetData cfgDemo [("c1", freshClient "c1" none 0)] "c1"
            [("a", JValue.raw "1")] 5).1
          "c1" [("b", JValue.raw "2")] 6).1 "c1"
      = some (ClientData.mk "c1" 0
          (some [("a", JValue.raw "1"), ("lastUpdated", JValue.time 6),
                 ("b", JValue.raw "2")])
          (some 0) 0 false) := by
  have h2 := C4_setData_shallow_merge cfgDemo
      (handleSetData cfgDemo [("c1", freshClient "c1" none 0)] "c1"
        [("a", JValue.raw "1")] 5).1
      "c1"
      (ClientData.mk "c1" 0
        (some [("a", JValue.raw "1"), ("lastUpdated", JValue.time 5)])
        (some 0) 0 false)
      [("b", JValue.raw "2")] 6
      (by decide) (by decide) (by decide)
  refine ⟨by decide, ?_, ?_, h2.2.2.1, ?_⟩
  · rw [h2.2.1 "a" (by decide)]
    decide
  · rw [h2.2.1 "b" (by decide)]
    decide
  · rw [h2.1]
    decide

/-- C9 counterexample: with an empty registry — the sender and the
target of an armed typing auto-stop timer are both gone — the
auto-stop callback still emits its typingUpdate from the captured
data.  The callback performs no registry presence re-check, so the
claim that every timer callback first re-checks registry presence and
no-ops when the client is gone fails. -/
theorem C9_counterexample :
    getClient [] "s1" = none
    ∧ getClient [] "t1" = none
    ∧ typingStopCallback []
        (TypingTimer.mk "s1" "bob" "t1" "alice" (JValue.raw "\x7b\x7d"))
      = [Effect.emit "t1" "system:typingUpdate"
          (Payload.typingUpdate "s1" "alice" (JValue.raw "\x7b\x7d") false)] := by
  decide

/-- C9 amended: the timer callbacks do not re-check registry
presence.  The typing auto-stop callback is registry-independent — it
emits the captured typingUpdate whatever the registry holds.  The
heartbeat deadline callback guards only on the captured pending flag;
once the record is gone it can no longer change the registry or emit
anything.  What does hold is the cancellation half of the claim: the
disconnect cleanup of a socket leaves no typing auto-stop timer owned
by that socket, so no auto-stop typingUpdate from a disconnected
sender can fire afterwards. -/
theorem C9_no_presence_recheck_but_cleanup_cancels :
    (∀ (st st' : Registry) (tm : TypingTimer),
        typingStopCallback st tm = typingStopCallback st' tm)
    ∧ (∀ (cfg : Config) (st : Registry) (socketId : String),
        mapGet st socketId = none →
          heartbeatTimeoutCallback cfg st socketId = (st, []))
    ∧ (∀ (timers : List TypingTimer) (socketId : String),
        ∀ tm ∈ typingDisconnectCleanup timers socketId, ¬ tm.sender = socketId) := by
  refine ⟨fun _ _ _ => rfl, ?_, ?_⟩
  · intro cfg st socketId hnone
    unfold heartbeatTimeoutCallback
    rw [hnone]
  · intro timers socketId tm hmem
    have := (List.mem_filter.mp hmem).2
    simpa using this

/-- C9 witness: the amended cancellation behaviour at concrete timers
and registry. -/
theorem C9_witness :
    heartbeatTimeoutCallback cfgDemo
        [("other", ClientData.mk "other" 1 none (some 1) 0 false)] "gone"
      = ([("other", ClientData.mk "other" 1 none (some 1) 0 false)], [])
    ∧ ¬ (TypingTimer.mk "s2" "bob" "t1" "carol" (JValue.raw "\x7b\x7d")).sender
        = "s1"
    ∧ typingDisconnectCleanup
        [TypingTimer.mk "s1" "bob" "t1" "alice" (JValue.raw "\x7b\x7d"),
         TypingTimer.mk "s2" "bob" "t1" "carol" (JValue.raw "\x7b\x7d")]
        "s1"
      = [TypingTimer.mk "s2" "bob" "t1" "carol" (JValue.raw "\x7b\x7d")] :=
  ⟨(C9_no_presence_recheck_but_cleanup_cancels.2.1 cfgDemo
      [("other", ClientData.mk "other" 1 none (some 1) 0 false)] "gone"
      (by decide)),
   (C9_no_presence_recheck_but_cleanup_cancels.2.2
      [TypingTimer.mk "s1" "bob" "t1" "alice" (JValue.raw "\x7b\x7d"),
       TypingTimer.mk "s2" "bob" "t1" "carol" (JValue.raw "\x7b\x7d")]
      "s1"
      (TypingTimer.mk "s2" "bob" "t1" "carol" (JValue.raw "\x7b\x7d"))
      (by decide)),
   by decide⟩

theorem find?_first_min {l : List ClientData} {u : String} {c : ClientData}
    (hs : List.Pairwise (fun a b => a ≤ b) (l.map (fun r => r.connectTime)))
    (h : l.find? (matchesUsername u) = some c) :
    matchesUsername u c = true
    ∧ ∀ r ∈ l, matchesUsername u r = true → c.connectTime ≤ r.connectTime := by
  induction l with
  | nil => cases h
  | cons a t ih =>
    rw [List.map_cons, List.pairwise_cons] at hs
    by_cases ha : matchesUsername u a = true
    · rw [List.find?_cons_of_pos _ ha] at h
      have hc : c = a := by simpa using h.symm
      subst hc
      refine ⟨ha, ?_⟩
      intro r hr _
      rcases List.mem_cons.mp hr with hre | hrt
      · rw [hre]
      · exact hs.1 _ (List.mem_map.mpr ⟨r, hrt, rfl⟩)
    · rw [List.find?_cons_of_neg _ ha] at h
      rcases ih hs.2 h with ⟨h1, h2⟩
      refine ⟨h1, ?_⟩
      intro r hr hm
      rcases List.mem_cons.mp hr with hre | hrt
      · rw [hre] at hm
        exact absurd hm ha
      · exact h2 r hrt hm

theorem mapGet_none_not_any {st : Registry} {k : String}
    (h : mapGet st k = none) : st.any (fun p => p.1 = k) = false := by
  cases ha : st.any (fun p => p.1 = k) with
  | false => rfl
  | true =>
      rcases List.any_eq_true.mp ha with ⟨p, hp, hpk⟩
      have hsm : (st.find? (fun q => q.1 = k)).isSome :=
        List.find?_isSome.mpr ⟨p, hp, hpk⟩
      cases hf : st.find? (fun q => q.1 = k) with
      | none => rw [hf] at hsm; cases hsm
      | some w =>
          unfold mapGet at h
          rw [hf] at h
          cases h

theorem skeleton_replace {st : Registry} {k : String} {c : ClientData}
    (hnd : (st.map Prod.fst).Nodup) (hget : mapGet st k = some c)
    (v : ClientData) (hv : v.connectTime = c.connectTime) :
    (st.map (fun p => if p.1 = k then (k, v) else p)).map
        (fun p => (p.1, (p.2).connectTime))
      = st.map (fun p => (p.1, (p.2).connectTime)) := by
  induction st with
  | nil => rfl
  | cons a t ih =>
    rw [List.map_cons, List.nodup_cons] at hnd
    by_cases ha : a.1 = k
    · have hc : a.2 = c := by
        unfold mapGet at hget
        rw [List.find?_cons_of_pos _ (by simpa using ha)] at hget
        simpa using hget
      have htail : t.map (fun p => if p.1 = k then (k, v) else p) = t := by
        have : ∀ q ∈ t, (fun p => if p.1 = k then (k, v) else p) q = id q := by
          intro q hq
          have hqk : ¬ q.1 = k := by
            intro hqk
            exact hnd.1 (by
              rw [ha]
              rw [← hqk]
              exact List.mem_map.mpr ⟨q, hq, rfl⟩)
          simp [hqk]
        rw [List.map_congr_left this, List.map_id]
      simp only [List.map_cons, if_pos ha, htail]
      rw [ha, hv, hc]
    · have hget1 : mapGet t k = some c := by
        unfold mapGet at hget ⊢
        rw [List.find?_cons_of_neg _ (by simpa using ha)] at hget
        exact hget
      simp only [List.map_cons, if_neg ha]
      rw [ih hnd.2 hget1]

/-- C10: username lookup is deterministic and returns the record that
was added to the registry earliest among the current matches.
Conjunct one: under nondecreasing connect times along iteration order
(the invariant of a monotone clock), the first-match scan of
getClientByUsername returns a matching record whose connectTime is
minimal among all current matches.  Conjuncts two to four: iteration
order is exactly first-addition order, because a fresh addClient
appends to the end (and keeps the invariant when the clock is
monotone), updateClientMetadata preserves both the key order and every
connectTime, and removeClient preserves the invariant. -/
theorem C10_lookup_returns_earliest_added :
    (∀ (st : Registry) (u : String) (c : ClientData),
        SortedByConnect st → getClientByUsername st u = some c →
          matchesUsername u c = true
          ∧ ∀ r ∈ mapValues st, matchesUsername u r = true →
              c.connectTime ≤ r.connectTime)
    ∧ (∀ (st : Registry) (id : String) (m : Option Obj) (now : Nat),
        mapGet st id = none →
          mapValues (addClient st id m now)
            = mapValues st ++ [freshClient id m now]
          ∧ ((∀ r ∈ mapValues st, r.connectTime ≤ now) → SortedByConnect st →
              SortedByConnect (addClient st id m now)))
    ∧ (∀ (st : Registry) (socketId : String) (mo : Obj),
        (st.map Prod.fst).Nodup →
          (updateClientMetadata st socketId mo).map
              (fun p => (p.1, (p.2).connectTime))
            = st.map (fun p => (p.1, (p.2).connectTime)))
    ∧ (∀ (st : Registry) (id : String),
        SortedByConnect st → SortedByConnect (removeClient st id)) := by
  refine ⟨?_, ?_, ?_, ?_⟩
  · intro st u c hs h
    exact find?_first_min hs h
  · intro st id m now hnone
    have happ : addClient st id m now = st ++ [(id, freshClient id m now)] := by
      unfold addClient mapSet
      rw [if_neg (by rw [mapGet_none_not_any hnone]; exact Bool.false_ne_true)]
    constructor
    · rw [happ]
      unfold mapValues
      rw [List.map_append]
      rfl
    · intro hle hs
      rw [happ]
      unfold SortedByConnect connectTimes mapValues
      rw [List.map_append, List.map_append]
      rw [List.pairwise_append]
      refine ⟨hs, by simp, ?_⟩
      intro a hain b hbin
      have hb : b = now := by
        simp only [List.map_map, List.map_cons, List.map_nil] at hbin
        simpa [freshClient] using hbin
      rcases List.mem_map.mp ((List.map_map _ _ _ ▸ hain : a ∈ st.map _)) with
        ⟨p, hp, hpa⟩
      rw [hb, ← hpa]
      exact hle (p.2) (List.mem_map.mpr ⟨p, hp, rfl⟩)
  · intro st socketId mo hnd
    unfold updateClientMetadata
    cases hget : mapGet st socketId with
    | none => rfl
    | some c =>
        dsimp only
        unfold mapSet
        have hany : st.any (fun p => p.1 = socketId) = true := by
          cases hf : st.find? (fun p => p.1 = socketId) with
          | none =>
              unfold mapGet at hget
              rw [hf] at hget
              cases hget
          | some w => exact any_key_of_find? hf
        rw [if_pos hany]
        exact skeleton_replace hnd hget _ rfl
  · intro st id hs
    unfold SortedByConnect connectTimes mapValues at hs ⊢
    refine List.Pairwise.sublist ?_ hs
    exact List.Sublist.map _ (List.Sublist.map _ (List.filter_sublist st))

/-- C10 witness: two clients sharing a username; lookup returns the
earlier-added one. -/
theorem C10_witness :
    SortedByConnect
      [("a", ClientData.mk "a" 1 (some [("username", JValue.str "u")]) (some 1) 0 false),
       ("b", ClientData.mk "b" 2 (some [("username", JValue.str "u")]) (some 2) 0 false)]
    ∧ getClientByUsername
        [("a", ClientData.mk "a" 1 (some [("username", JValue.str "u")]) (some 1) 0 false),
         ("b", ClientData.mk "b" 2 (some [("username", JValue.str "u")]) (some 2) 0 false)]
        "u"
      = some (ClientData.mk "a" 1 (some [("username", JValue.str "u")]) (some 1) 0 false)
    ∧ matchesUsername "u"
        (ClientData.mk "a" 1 (some [("username", JValue.str "u")]) (some 1) 0 false) = true
    ∧ (ClientData.mk "a" 1 (some [("username", JValue.str "u")]) (some 1) 0 false).connectTime
        ≤ (ClientData.mk "b" 2 (some [("username", JValue.str "u")]) (some 2) 0 false).connectTime := by
  refine ⟨by decide, by decide, ?_, ?_⟩
  · exact (C10_lookup_returns_earliest_added.1
      [("a", ClientData.mk "a" 1 (some [("username", JValue.str "u")]) (some 1) 0 false),
       ("b", ClientData.mk "b" 2 (some [("username", JValue.str "u")]) (some 2) 0 false)]
      "u"
      (ClientData.mk "a" 1 (some [("username", JValue.str "u")]) (some 1) 0 false)
      (by decide) (by decide)).1
  · exact (C10_lookup_returns_earliest_added.1
      [("a", ClientData.mk "a" 1 (some [("username", JValue.str "u")]) (some 1) 0 false),
       ("b", ClientData.mk "b" 2 (some [("username", JValue.str "u")]) (some 2) 0 false)]
      "u"
      (ClientData.mk "a" 1 (some [("username", JValue.str "u")]) (some 1) 0 false)
      (by decide) (by decide)).2
      (ClientData.mk "b" 2 (some [("username", JValue.str "u")]) (some 2) 0 false)
      (by decide) (by decide)
